import Mathlib

/-!
Shallow embedding of `vllm/v1/executor/distributed_gpu_executor.py`
(`DistributedGPUExecutor`), the distributed worker-coordination layer:
capacity negotiation (`determine_num_available_blocks`), cache
initialization (`initialize_cache`), sharded checkpointing
(`save_sharded_state`), and the abstract dispatch/health/execution hooks.

Worker block counts are Python integers, embedded as `Int`.  Worker-side
behaviour of the abstract `_run_workers` dispatch is a parameter
`behavior : Nat → String → Except String Unit` (per worker index and
operation name).  Observable side effects (controller log lines, per-worker
invocations) are recorded in an event trace.
-/

namespace DistributedGPUExecutor

/-- Embedded Python values appearing in dispatch argument payloads. -/
inductive PyVal where
  | none
  | int (i : Int)
  | str (s : String)
deriving DecidableEq

/-- Failures surfaced by the executor methods.
`valueError` embeds Python's `ValueError` (e.g. `min()` of an empty
sequence); `workerExecutionError` embeds a failure of a dispatched
per-worker operation, carrying worker index, operation name and cause;
`notImplementedError` embeds `raise NotImplementedError`. -/
inductive ExecError where
  | workerExecutionError (worker_index : Nat) (operation : String) (cause : String)
  | valueError (msg : String)
  | notImplementedError
deriving DecidableEq

/-- Observable events at the controller: a log line (format string and the
logged integer) or the invocation of a named operation on one worker with
its positional and keyword argument payload. -/
inductive Event where
  | log (fmt : String) (arg : Int)
  | workerCall (worker_index : Nat) (operation : String)
      (args : List PyVal) (kwargs : List (String × PyVal))
deriving DecidableEq

/-- The operation name of a worker-call event, `none` for a log event. -/
def opOf : Event → Option String
  | .log _ _ => Option.none
  | .workerCall _ op _ _ => some op

/-- Whether an event is a controller log line. -/
def isLog : Event → Bool
  | .log _ _ => true
  | .workerCall _ _ _ _ => false

/-- Python's `min` over a list of integers: `ValueError` on the empty list,
otherwise the left fold of binary `min` over the elements. -/
def pyMinInt : List Int → Except ExecError Int
  | [] => Except.error (ExecError.valueError "min() arg is an empty sequence")
  | x :: xs => Except.ok (xs.foldl min x)

/-- `DistributedGPUExecutor.determine_num_available_blocks`, parametrised
by the result of the underlying `_run_workers("determine_num_available_blocks")`
dispatch (a per-worker list of `(num_gpu_blocks, num_cpu_blocks)` pairs, or
a dispatch failure, which propagates).  The source takes
`min(b[0] for b in num_blocks)` and returns `(num_gpu_blocks, 0)`. -/
def determine_num_available_blocks
    (dispatch_result : Except ExecError (List (Int × Int))) :
    Except ExecError (Int × Int) :=
  match dispatch_result with
  | .error e => Except.error e
  | .ok num_blocks =>
    match pyMinInt (num_blocks.map Prod.fst) with
    | .error e => Except.error e
    | .ok num_gpu_blocks => Except.ok (num_gpu_blocks, 0)

/-- First failing worker in index order, with its cause, over a list of
worker indices; `none` when every listed worker succeeds. -/
def firstFailureAux (behavior : Nat → String → Except String Unit)
    (op : String) : List Nat → Option (Nat × String)
  | [] => Option.none
  | i :: is =>
    match behavior i op with
    | .error c => some (i, c)
    | .ok _ => firstFailureAux behavior op is

/-- Modelled from the spec: the All-synchronous mode of the abstract
`_run_workers` hook (its body in the source is `raise NotImplementedError`).
It invokes the operation with the given argument payload on every worker of
the pool, in pool index order, blocking until all complete; if any worker
fails, the dispatch surfaces `WorkerExecutionError{worker_index, operation,
cause}` for the first failing worker instead of a value. -/
def run_workers_sync (n : Nat) (behavior : Nat → String → Except String Unit)
    (op : String) (args : List PyVal) (kwargs : List (String × PyVal)) :
    List Event × Except ExecError Unit :=
  ((List.range n).map (fun i => Event.workerCall i op args kwargs),
   match firstFailureAux behavior op (List.range n) with
   | some ic => Except.error (ExecError.workerExecutionError ic.1 op ic.2)
   | Option.none => Except.ok ())

/-- `DistributedGPUExecutor.initialize_cache`: logs the number of GPU
blocks, dispatches `initialize_cache(num_gpu_blocks)` synchronously to all
workers, and only if that dispatch returned (no exception) dispatches
`compile_or_warm_up_model()` to all workers.  Returns the event trace and
the overall outcome. -/
def initialize_cache (n : Nat) (behavior : Nat → String → Except String Unit)
    (num_gpu_blocks : Int) : List Event × Except ExecError Unit :=
  let logEv := Event.log "# GPU blocks: %d" num_gpu_blocks
  let r1 := run_workers_sync n behavior "initialize_cache"
    [PyVal.int num_gpu_blocks] []
  match r1.2 with
  | .error e => (logEv :: r1.1, Except.error e)
  | .ok _ =>
    let r2 := run_workers_sync n behavior "compile_or_warm_up_model" [] []
    (logEv :: (r1.1 ++ r2.1), r2.2)

/-- Embedding of a Python `Optional` argument into a `PyVal`. -/
def pyOpt {α : Type} (f : α → PyVal) : Option α → PyVal
  | Option.none => PyVal.none
  | some a => f a

/-- `DistributedGPUExecutor.save_sharded_state`: one synchronous
`_run_workers("save_sharded_state", path=path, pattern=pattern,
max_size=max_size)` dispatch across the full pool, with no aggregation of
results. -/
def save_sharded_state (n : Nat) (behavior : Nat → String → Except String Unit)
    (path : String) (pattern : Option String) (max_size : Option Int) :
    List Event × Except ExecError Unit :=
  run_workers_sync n behavior "save_sharded_state" []
    [("path", PyVal.str path), ("pattern", pyOpt PyVal.str pattern),
     ("max_size", pyOpt PyVal.int max_size)]

/-- A pending handle returned by the asynchronous dispatch mode: one
not-yet-awaited remote invocation of an operation on one worker. -/
structure PendingHandle where
  worker_index : Nat
  operation : String
deriving DecidableEq

/-- The non-driver workers of an `n`-worker pool whose driver sits at
`driver_index`, in pool index order. -/
def remote_workers (n : Nat) (driver_index : Nat) : List Nat :=
  (List.range n).filter (fun i => decide (i ≠ driver_index))

/-- Modelled from the spec: the Remote-asynchronous-subset mode of the
abstract `_run_workers` hook (`async_run_tensor_parallel_workers_only=True`;
its body in the source is `raise NotImplementedError`).  It invokes the
operation only on the remote (non-driver) workers and returns immediately
with one pending handle per invoked remote worker, pool order preserved. -/
def run_workers_async (n : Nat) (driver_index : Nat) (op : String) :
    List PendingHandle :=
  (remote_workers n driver_index).map (fun i => PendingHandle.mk i op)

/-- `DistributedGPUExecutor.execute_model` at the base class: the body is
`raise NotImplementedError`.  The base class holds no state of its own, so
the method is threaded through an arbitrary state `s`, returned unchanged. -/
def execute_model {σ : Type} (s : σ) (scheduler_output : PyVal) :
    Except ExecError PyVal × σ :=
  (Except.error ExecError.notImplementedError, s)

/-- `DistributedGPUExecutor.check_health` at the base class: the body is
`raise NotImplementedError`, threaded through an arbitrary state `s`. -/
def check_health {σ : Type} (s : σ) : Except ExecError Unit × σ :=
  (Except.error ExecError.notImplementedError, s)

/- ### Helper lemmas -/

/-- The left fold of `min` over `a :: l` is an element of `a :: l`. -/
theorem foldl_min_mem : ∀ (l : List Int) (a : Int), l.foldl min a ∈ a :: l := by
  intro l
  induction l with
  | nil => intro a; simp
  | cons x xs ih =>
    intro a
    have h := ih (min a x)
    rcases List.mem_cons.1 h with h0 | h1
    · rcases min_choice a x with hc | hc <;> rw [List.foldl_cons, h0, hc] <;> simp
    · simp [List.foldl_cons, List.mem_cons.2 (Or.inr h1)]

/-- The left fold of `min` over `a :: l` is a lower bound of `a :: l`. -/
theorem foldl_min_le : ∀ (l : List Int) (a : Int), ∀ x ∈ a :: l, l.foldl min a ≤ x := by
  intro l
  induction l with
  | nil => intro a x hx; simp at hx; simp [hx]
  | cons y ys ih =>
    intro a x hx
    rw [List.foldl_cons]
    have hmin := ih (min a y) (min a y) (List.mem_cons_self _ _)
    rcases List.mem_cons.1 hx with h0 | h1
    · rw [h0]
      exact le_trans hmin (min_le_left a y)
    · rcases List.mem_cons.1 h1 with h2 | h3
      · rw [h2]
        exact le_trans hmin (min_le_right a y)
      · exact ih (min a y) x (List.mem_cons.2 (Or.inr h3))

/-- `firstFailureAux` skips a prefix of succeeding workers. -/
theorem firstFailureAux_append_ok (behavior : Nat → String → Except String Unit)
    (op : String) (l1 l2 : List Nat)
    (h : ∀ i ∈ l1, behavior i op = Except.ok ()) :
    firstFailureAux behavior op (l1 ++ l2) = firstFailureAux behavior op l2 := by
  induction l1 with
  | nil => rfl
  | cons i is ih =>
    have hi := h i (List.mem_cons_self _ _)
    simp only [List.cons_append, firstFailureAux, hi]
    exact ih (fun j hj => h j (List.mem_cons.2 (Or.inr hj)))

/-- `firstFailureAux` is `none` when every listed worker succeeds. -/
theorem firstFailureAux_eq_none (behavior : Nat → String → Except String Unit)
    (op : String) (l : List Nat)
    (h : ∀ i ∈ l, behavior i op = Except.ok ()) :
    firstFailureAux behavior op l = Option.none := by
  induction l with
  | nil => rfl
  | cons i is ih =>
    have hi := h i (List.mem_cons_self _ _)
    simp only [firstFailureAux, hi]
    exact ih (fun j hj => h j (List.mem_cons.2 (Or.inr hj)))

/-- Every event emitted by one synchronous dispatch is a worker call
carrying that dispatch's operation name. -/
theorem run_workers_sync_trace_op (n : Nat)
    (behavior : Nat → String → Except String Unit) (op : String)
    (args : List PyVal) (kwargs : List (String × PyVal)) :
    ∀ e ∈ (run_workers_sync n behavior op args kwargs).1, opOf e = some op := by
  intro e he
  rcases List.mem_map.1 he with ⟨i, _, rfl⟩
  rfl

/- ### Claim theorems -/

/-- C1: for a non-empty list of per-worker reports whose primary components
have minimum `m`, `determine_num_available_blocks` returns `(m, 0)`, `m` is
one of the reported primary counts, and `m` never exceeds any individual
worker's reported primary count; in particular worker reports with primary
counts `[100, 80, 120, 90]` yield `(80, 0)` (see the witness). -/
theorem determine_num_available_blocks_min (reports : List (Int × Int)) (m : Int)
    (h : (reports.map Prod.fst).min? = some m) :
    determine_num_available_blocks (Except.ok reports) = Except.ok (m, 0) ∧
      m ∈ reports.map Prod.fst ∧ ∀ x ∈ reports.map Prod.fst, m ≤ x := by
  cases reports with
  | nil => exact absurd h (by simp [List.min?])
  | cons b bs =>
    have hm : m = (bs.map Prod.fst).foldl min b.1 := by
      simpa [List.min?] using h.symm
    subst hm
    refine ⟨rfl, ?_, ?_⟩
    · simpa using foldl_min_mem (bs.map Prod.fst) b.1
    · intro x hx
      exact foldl_min_le (bs.map Prod.fst) b.1 x (by simpa using hx)

/-- C1 witness: the spec scenario `[100, 80, 120, 90] ↦ (80, 0)`. -/
theorem determine_num_available_blocks_min_witness :
    determine_num_available_blocks
      (Except.ok [((100 : Int), (1 : Int)), (80, 2), (120, 3), (90, 4)]) =
      Except.ok (80, 0) :=
  (determine_num_available_blocks_min
    [((100 : Int), (1 : Int)), (80, 2), (120, 3), (90, 4)] 80 (by decide)).1

/-- C2 counterexample: a worker reporting the non-positive primary count 0
does not make `determine_num_available_blocks` raise; the call returns the
value `(0, 0)`. -/
theorem determine_nonpositive_counterexample :
    determine_num_available_blocks (Except.ok [((0 : Int), (5 : Int))]) =
      Except.ok (0, 0) := rfl

/-- C2 amended: `determine_num_available_blocks` performs no positivity
validation.  When some worker reports a non-positive primary-block count,
the call still returns `(m, 0)` where `m` is the minimum reported primary
count, and that `m` is itself non-positive; no error is raised. -/
theorem determine_nonpositive_returns (reports : List (Int × Int))
    (b : Int × Int) (m : Int) (hmem : b ∈ reports) (hb : b.1 ≤ 0)
    (h : (reports.map Prod.fst).min? = some m) :
    determine_num_available_blocks (Except.ok reports) = Except.ok (m, 0) ∧
      m ≤ 0 := by
  cases reports with
  | nil => exact absurd hmem (List.not_mem_nil b)
  | cons c cs =>
    have hm : m = (cs.map Prod.fst).foldl min c.1 := by
      simpa [List.min?] using h.symm
    subst hm
    refine ⟨rfl, le_trans ?_ hb⟩
    exact foldl_min_le (cs.map Prod.fst) c.1 b.1
      (by simpa using List.mem_map_of_mem Prod.fst hmem)

/-- C2 amended witness: with the single report `(0, 5)` the call returns
`(0, 0)` with a non-positive primary count instead of raising. -/
theorem determine_nonpositive_returns_witness :
    determine_num_available_blocks (Except.ok [((0 : Int), (5 : Int))]) =
      Except.ok (0, 0) ∧ (0 : Int) ≤ 0 :=
  determine_nonpositive_returns [((0 : Int), (5 : Int))] ((0 : Int), (5 : Int))
    0 (by decide) (by decide) (by decide)

/-- C8: on an empty list of worker reports, `determine_num_available_blocks`
raises Python's `ValueError` from `min()` of an empty sequence and never
returns a cache-size pair: the operation is defined only for non-empty
pools. -/
theorem determine_empty_raises :
    determine_num_available_blocks (Except.ok []) =
      Except.error (ExecError.valueError "min() arg is an empty sequence") ∧
      ∀ p : Int × Int,
        determine_num_available_blocks (Except.ok []) ≠ Except.ok p := by
  refine ⟨rfl, ?_⟩
  intro p hp
  exact Except.noConfusion (rfl.symm.trans hp)

/-- C10: the result of `determine_num_available_blocks` depends only on the
primary (first) components of the worker reports: two report lists with
equal primary components yield identical results whatever their secondary
components. -/
theorem determine_ignores_secondary (r1 r2 : List (Int × Int))
    (h : r1.map Prod.fst = r2.map Prod.fst) :
    determine_num_available_blocks (Except.ok r1) =
      determine_num_available_blocks (Except.ok r2) := by
  simp only [determine_num_available_blocks, h]

/-- C10 witness: reports agreeing on primary counts `[100, 80]` but with
different secondary counts produce the same result. -/
theorem determine_ignores_secondary_witness :
    determine_num_available_blocks
        (Except.ok [((100 : Int), (1 : Int)), (80, 2)]) =
      determine_num_available_blocks
        (Except.ok [((100 : Int), (500 : Int)), (80, 9000)]) :=
  determine_ignores_secondary [((100 : Int), (1 : Int)), (80, 2)]
    [((100 : Int), (500 : Int)), (80, 9000)] (by decide)

/-- One synchronous dispatch emits no controller log event. -/
theorem run_workers_sync_no_log (n : Nat)
    (behavior : Nat → String → Except String Unit) (op : String)
    (args : List PyVal) (kwargs : List (String × PyVal)) :
    (run_workers_sync n behavior op args kwargs).1.countP isLog = 0 := by
  rw [List.countP_eq_zero]
  intro e he
  rcases List.mem_map.1 he with ⟨i, _, rfl⟩
  simp [isLog]

/-- The trace of `initialize_cache` is the log line, then the
`initialize_cache` dispatch trace, then (only when that dispatch
succeeded) the `compile_or_warm_up_model` dispatch trace. -/
theorem initialize_cache_trace (n : Nat)
    (behavior : Nat → String → Except String Unit) (g : Int) :
    (initialize_cache n behavior g).1 =
      Event.log "# GPU blocks: %d" g ::
        ((run_workers_sync n behavior "initialize_cache" [PyVal.int g] []).1 ++
          (match (run_workers_sync n behavior "initialize_cache"
              [PyVal.int g] []).2 with
           | .ok _ =>
             (run_workers_sync n behavior "compile_or_warm_up_model" [] []).1
           | .error _ => [])) := by
  unfold initialize_cache
  cases h : (run_workers_sync n behavior "initialize_cache"
      [PyVal.int g] []).2 <;> simp [h]

/- ### Claim theorems (continued) -/

/-- C3: in every execution of `initialize_cache`, every
`compile_or_warm_up_model` worker invocation occurs strictly later in the
event trace than every `initialize_cache` worker invocation: the warm-up
dispatch never begins before the cache-initialization dispatch has
completed on every worker. -/
theorem initialize_cache_warmup_after_init (n : Nat)
    (behavior : Nat → String → Except String Unit) (g : Int)
    (p q : Nat) (ew ei : Event)
    (hp : (initialize_cache n behavior g).1.get? p = some ew)
    (hq : (initialize_cache n behavior g).1.get? q = some ei)
    (hop : opOf ew = some "compile_or_warm_up_model")
    (hoq : opOf ei = some "initialize_cache") :
    q < p := by
  rw [initialize_cache_trace] at hp hq
  set t1 := (run_workers_sync n behavior "initialize_cache"
    [PyVal.int g] []).1 with ht1
  set rest := (match (run_workers_sync n behavior "initialize_cache"
      [PyVal.int g] []).2 with
    | .ok _ => (run_workers_sync n behavior "compile_or_warm_up_model" [] []).1
    | .error _ => ([] : List Event)) with hrest
  have rest_op : ∀ e ∈ rest, opOf e = some "compile_or_warm_up_model" := by
    rw [hrest]
    cases (run_workers_sync n behavior "initialize_cache" [PyVal.int g] []).2 with
    | ok u => exact run_workers_sync_trace_op n behavior _ [] []
    | error e0 => intro e he; exact absurd he (List.not_mem_nil e)
  have t1_op : ∀ e ∈ t1, opOf e = some "initialize_cache" :=
    run_workers_sync_trace_op n behavior _ [PyVal.int g] []
  cases p with
  | zero =>
    have hew : ew = Event.log "# GPU blocks: %d" g :=
      (Option.some.inj hp).symm
    rw [hew] at hop
    exact absurd hop (by simp [opOf])
  | succ p1 =>
    cases q with
    | zero =>
      have hei : ei = Event.log "# GPU blocks: %d" g :=
        (Option.some.inj hq).symm
      rw [hei] at hoq
      exact absurd hoq (by simp [opOf])
    | succ q1 =>
      rw [List.get?_cons_succ] at hp hq
      have hp1 : ¬ p1 < t1.length := by
        intro hlt
        rw [List.get?_append hlt] at hp
        have := t1_op ew (List.get?_mem hp)
        rw [hop] at this
        exact absurd (Option.some.inj this) (by decide)
      have hq1 : q1 < t1.length := by
        by_contra hge
        rw [List.get?_append_right (Nat.le_of_not_lt hge)] at hq
        have := rest_op ei (List.get?_mem hq)
        rw [hoq] at this
        exact absurd (Option.some.inj this) (by decide)
      omega

/-- C3 witness: for a 2-worker all-succeeding pool, the warm-up call on
worker 0 sits at trace position 3, after the initialization call on worker
0 at position 1. -/
theorem initialize_cache_warmup_after_init_witness :
    (initialize_cache 2 (fun _ _ => Except.ok ()) 80).1.get? 3 =
        some (Event.workerCall 0 "compile_or_warm_up_model" [] []) ∧
      (initialize_cache 2 (fun _ _ => Except.ok ()) 80).1.get? 1 =
        some (Event.workerCall 0 "initialize_cache" [PyVal.int 80] []) ∧
      1 < 3 :=
  ⟨by decide, by decide,
   initialize_cache_warmup_after_init 2 (fun _ _ => Except.ok ()) 80 3 1
     (Event.workerCall 0 "compile_or_warm_up_model" [] [])
     (Event.workerCall 0 "initialize_cache" [PyVal.int 80] [])
     (by decide) (by decide) rfl rfl⟩

/-- C4: when the `initialize_cache` dispatch fails on worker index 2 with
cause "out of memory" (earlier workers succeeding), `initialize_cache`
raises `WorkerExecutionError` identifying worker 2, the operation
`initialize_cache` and that cause, and no `compile_or_warm_up_model`
invocation is ever issued to any worker. -/
theorem initialize_cache_failure_no_warmup (n : Nat)
    (behavior : Nat → String → Except String Unit) (g : Int)
    (hn : 2 < n)
    (h2 : behavior 2 "initialize_cache" = Except.error "out of memory")
    (hlt : ∀ i < 2, behavior i "initialize_cache" = Except.ok ()) :
    (initialize_cache n behavior g).2 =
      Except.error
        (ExecError.workerExecutionError 2 "initialize_cache" "out of memory") ∧
      ∀ e ∈ (initialize_cache n behavior g).1,
        opOf e ≠ some "compile_or_warm_up_model" := by
  obtain ⟨k, hk⟩ := Nat.exists_eq_add_of_lt hn
  have hn3 : n = 3 + k := by omega
  subst hn3
  have hfail : firstFailureAux behavior "initialize_cache" (List.range (3 + k)) =
      some (2, "out of memory") := by
    rw [List.range_add]
    rw [show List.range 3 = [0, 1, 2] from rfl]
    simp only [List.cons_append, List.nil_append, firstFailureAux,
      hlt 0 (by omega), hlt 1 (by omega), h2]
  have hr2 : (run_workers_sync (3 + k) behavior "initialize_cache"
      [PyVal.int g] []).2 =
      Except.error
        (ExecError.workerExecutionError 2 "initialize_cache" "out of memory") := by
    simp only [run_workers_sync, hfail]
  constructor
  · simp only [initialize_cache]
    rw [hr2]
  · rw [initialize_cache_trace, hr2]
    intro e he hwarm
    rcases List.mem_cons.1 he with h0 | h1
    · rw [h0] at hwarm
      exact absurd hwarm (by simp [opOf])
    · rw [List.append_nil] at h1
      have := run_workers_sync_trace_op (3 + k) behavior "initialize_cache"
        [PyVal.int g] [] e h1
      rw [hwarm] at this
      exact absurd (Option.some.inj this) (by decide)

/-- C4 witness: a 4-worker pool whose worker 2 fails with "out of memory"
makes `initialize_cache` surface exactly that worker-execution failure. -/
theorem initialize_cache_failure_no_warmup_witness :
    (initialize_cache 4
        (fun i _ => if i = 2 then Except.error "out of memory"
          else Except.ok ()) 80).2 =
      Except.error
        (ExecError.workerExecutionError 2 "initialize_cache" "out of memory") :=
  (initialize_cache_failure_no_warmup 4
    (fun i _ => if i = 2 then Except.error "out of memory" else Except.ok ())
    80 (by decide) rfl (fun i hi => if_neg (by omega))).1

/-- C5: `save_sharded_state` is exactly one All-synchronous dispatch of
`save_sharded_state` across the full pool — one invocation per worker in
pool order, each carrying `path`, `pattern` and `max_size` unchanged as
keyword arguments — and when every worker succeeds it returns `()` (no
aggregated value) without error. -/
theorem save_sharded_state_dispatch (n : Nat)
    (behavior : Nat → String → Except String Unit) (path : String)
    (pattern : Option String) (max_size : Option Int)
    (h : ∀ i, behavior i "save_sharded_state" = Except.ok ()) :
    save_sharded_state n behavior path pattern max_size =
      ((List.range n).map (fun i =>
          Event.workerCall i "save_sharded_state" []
            [("path", PyVal.str path), ("pattern", pyOpt PyVal.str pattern),
             ("max_size", pyOpt PyVal.int max_size)]),
        Except.ok ()) := by
  unfold save_sharded_state run_workers_sync
  rw [firstFailureAux_eq_none behavior "save_sharded_state" (List.range n)
    (fun i _ => h i)]

/-- C5 witness: `save_sharded_state("/ckpt", pattern=None, max_size=None)`
on an all-succeeding 4-worker pool returns without error, emitting exactly
one snapshot invocation per worker with the arguments forwarded. -/
theorem save_sharded_state_dispatch_witness :
    save_sharded_state 4 (fun _ _ => Except.ok ()) "/ckpt"
        Option.none Option.none =
      ([Event.workerCall 0 "save_sharded_state" []
          [("path", PyVal.str "/ckpt"), ("pattern", PyVal.none),
           ("max_size", PyVal.none)],
        Event.workerCall 1 "save_sharded_state" []
          [("path", PyVal.str "/ckpt"), ("pattern", PyVal.none),
           ("max_size", PyVal.none)],
        Event.workerCall 2 "save_sharded_state" []
          [("path", PyVal.str "/ckpt"), ("pattern", PyVal.none),
           ("max_size", PyVal.none)],
        Event.workerCall 3 "save_sharded_state" []
          [("path", PyVal.str "/ckpt"), ("pattern", PyVal.none),
           ("max_size", PyVal.none)]],
       Except.ok ()) :=
  save_sharded_state_dispatch 4 (fun _ _ => Except.ok ()) "/ckpt"
    Option.none Option.none (fun _ => rfl)

/-- C6: the trace of `initialize_cache` starts with the single log event
recording the finalized cache size, and contains exactly one log event:
the log happens once, at the controller, before any worker dispatch. -/
theorem initialize_cache_logs_once (n : Nat)
    (behavior : Nat → String → Except String Unit) (g : Int) :
    (initialize_cache n behavior g).1.get? 0 =
        some (Event.log "# GPU blocks: %d" g) ∧
      (initialize_cache n behavior g).1.countP isLog = 1 := by
  rw [initialize_cache_trace]
  refine ⟨rfl, ?_⟩
  rw [List.countP_cons, List.countP_append, run_workers_sync_no_log]
  have hrest : (match (run_workers_sync n behavior "initialize_cache"
      [PyVal.int g] []).2 with
    | .ok _ => (run_workers_sync n behavior "compile_or_warm_up_model" [] []).1
    | .error _ => ([] : List Event)).countP isLog = 0 := by
    cases (run_workers_sync n behavior "initialize_cache" [PyVal.int g] []).2 with
    | ok u => exact run_workers_sync_no_log n behavior _ [] []
    | error e => rfl
  rw [hrest]
  rfl

/-- Filtering out one index `d < n` from `List.range n` leaves `n - 1`
indices. -/
theorem length_filter_ne (n d : Nat) (h : d < n) :
    ((List.range n).filter (fun i => decide (i ≠ d))).length = n - 1 := by
  induction n with
  | zero => omega
  | succ m ih =>
    rw [List.range_succ, List.filter_append]
    by_cases hd : d < m
    · have hne : decide (m ≠ d) = true := decide_eq_true (by omega)
      have hm : List.filter (fun i => decide (i ≠ d)) [m] = [m] := by
        simp only [List.filter, hne]
      rw [hm, List.length_append, ih hd, List.length_singleton]
      omega
    · have hdm : d = m := by omega
      have hne : decide (m ≠ d) = false := decide_eq_false (by omega)
      have hm : List.filter (fun i => decide (i ≠ d)) [m] = [] := by
        simp only [List.filter, hne]
      have hall : List.filter (fun i => decide (i ≠ d)) (List.range m) =
          List.range m := by
        rw [List.filter_eq_self]
        intro a ha
        have := List.mem_range.1 ha
        simp only [decide_eq_true_eq]
        omega
      rw [hm, hall, List.append_nil, List.length_range]
      omega

/-- C7: the Remote-asynchronous-subset dispatch returns one pending handle
per remote (non-driver) worker: the handle list has length `n - 1`, its
worker indices are exactly the non-driver pool indices in pool order, and
every handle targets a non-driver worker with the dispatched operation. -/
theorem run_workers_async_remote_only (n d : Nat) (op : String) (h : d < n) :
    (run_workers_async n d op).length = n - 1 ∧
      (run_workers_async n d op).map PendingHandle.worker_index =
        (List.range n).filter (fun i => decide (i ≠ d)) ∧
      ∀ ph ∈ run_workers_async n d op,
        ph.operation = op ∧ ph.worker_index ≠ d := by
  refine ⟨?_, ?_, ?_⟩
  · rw [run_workers_async, List.length_map]
    exact length_filter_ne n d h
  · rw [run_workers_async, List.map_map]
    exact List.map_id'' (fun x => rfl) (remote_workers n d)
  · intro ph hph
    rcases List.mem_map.1 hph with ⟨i, hi, rfl⟩
    have := (List.mem_filter.1 hi).2
    exact ⟨rfl, of_decide_eq_true this⟩

/-- C7 witness: a 4-worker pool with driver index 0 yields 3 pending
handles, for remote workers 1, 2, 3 in pool order. -/
theorem run_workers_async_remote_only_witness :
    (run_workers_async 4 0 "execute_model").length = 4 - 1 ∧
      (run_workers_async 4 0 "execute_model").map PendingHandle.worker_index =
        [1, 2, 3] :=
  ⟨(run_workers_async_remote_only 4 0 "execute_model" (by decide)).1,
   ((run_workers_async_remote_only 4 0 "execute_model" (by decide)).2.1).trans
     (by decide)⟩

/-- C9: on the base class, `execute_model` and `check_health` always raise
`NotImplementedError` for every input and leave any ambient state
unchanged: they never succeed and never modify state. -/
theorem base_methods_not_implemented {σ : Type} (s : σ) (out : PyVal) :
    execute_model s out = (Except.error ExecError.notImplementedError, s) ∧
      check_health s = (Except.error ExecError.notImplementedError, s) :=
  ⟨rfl, rfl⟩

end DistributedGPUExecutor
